import Mathlib

/-!
Verification of the `eq` repository (a device-wide audio-equalizer control
surface, `src/main.rs`) against its natural-language specification.

The development is a shallow embedding of the program:

* the embedded Java engine class `GlobalEq` (static fields `eq`,
  `visualizer`, `bandGains`, `globalVol` and its static methods) becomes
  `EngineState` together with pure state-transformer functions;
* the Rust side (the process-global `GLOBAL_JNI_ENV` / `JAVA_GLOBALEQ_CLASS`
  slots, `with_jni_env`, the `call_*` marshalling functions, and the UI
  closures `set_band` / `set_volume` / `do_reset` plus the poller tick)
  becomes `SysState` with functions returning the `Result` values the code
  produces (`Except String`);
* floating-point arithmetic is modelled exactly over `ℚ` where the code is
  affine (gain/volume/coordinate arithmetic) and over `ℝ` where the code
  uses transcendental functions (`log10`, `Math.sqrt`);
* the cancellable background poller of `EqualizerUI` is modelled as a
  small-step interleaving transition system `PollStep` over `PollerSys`.
-/

/-! ## Coordinate mapper (`FrequencyChart`, `src/main.rs` lines 327-366) -/

/-- Clamp `x` into `[lo, hi]`, as Rust `x.clamp(lo, hi)` for `lo ≤ hi`. -/
def clampVal {α : Type} [LinearOrder α] (lo hi x : α) : α :=
  max lo (min x hi)

/-- Lower decibel bound of the chart, `let min_db = -24.0` (line 330). -/
def min_db : ℚ := -24

/-- Upper decibel bound of the chart, `let max_db = 24.0` (line 331). -/
def max_db : ℚ := 24

/-- Embedding of `db_to_y` (lines 337-340): linear map from decibels to the
inverted 200-pixel vertical extent, after clamping into `[min_db, max_db]`. -/
def db_to_y (db : ℚ) : ℚ :=
  200 - (clampVal min_db max_db db - min_db) / (max_db - min_db) * 200

/-- Embedding of the inline `yToDb` computation of `on_mouse_move`
(lines 358-366): `clamped_y = y.clamp(0,200); t = 1 - clamped_y/200;
db = min_db + t * (max_db - min_db)`. -/
def y_to_db (y : ℚ) : ℚ :=
  min_db + (1 - clampVal 0 200 y / 200) * (max_db - min_db)

/-- Embedding of `freq_to_x` (lines 332-336): clamp the frequency into
`[20, 20000]`, then map it through base-10 logarithms onto the 500-pixel
horizontal extent.  Total on all of `ℝ`: the source never errors. -/
noncomputable def freq_to_x (freq : ℝ) : ℝ :=
  (Real.logb 10 (clampVal 20 20000 freq) - Real.logb 10 20) /
    (Real.logb 10 20000 - Real.logb 10 20) * 500

/-! ## Embedded Java engine `GlobalEq` (`src/main.rs` lines 17-107) -/

/-- Number of UI bands: `NUM_BANDS = 8` in the Java class and
`band_count = 8` in `EqualizerUI`. -/
def NUM_BANDS : Int := 8

/-- State of the static fields of the embedded Java class `GlobalEq`.
`eq = some rb` models a non-null `Equalizer` whose `getNumberOfBands()`
returns `rb`; `transmitted` is the observation log of every
`eq.setBandLevel(band, levelMillibel)` call issued to the platform effect. -/
structure EngineState where
  eq : Option Int
  visualizer : Option Unit
  bandGains : List ℚ
  globalVol : ℚ
  transmitted : List (Int × Int)
deriving Repr

/-- Truncation of a rational toward zero, the rounding used by a Java
floating-point-to-integer narrowing conversion. -/
def truncToInt (q : ℚ) : Int :=
  if 0 ≤ q then ⌊q⌋ else ⌈q⌉

/-- Java narrowing `(int)` of a (finite) floating value: truncate toward
zero and saturate at the `int` bounds. -/
def javaFloatToInt (q : ℚ) : Int :=
  if truncToInt q < -(2 ^ 31) then -(2 ^ 31)
  else if 2 ^ 31 - 1 < truncToInt q then 2 ^ 31 - 1
  else truncToInt q

/-- Java narrowing `(short)` of an `int`: wrap modulo `2^16` into
`[-2^15, 2^15)`. -/
def intToShort (n : Int) : Int :=
  (n + 2 ^ 15) % 2 ^ 16 - 2 ^ 15

/-- Java `(short)` cast applied to a floating value, as in
`short mb = (short)(gainDb * 100)` (line 69): float-to-int truncation
followed by the int-to-short wrap. -/
def javaShortOfRat (q : ℚ) : Int :=
  intToShort (javaFloatToInt q)

/-- Embedding of `GlobalEq.setBandGain(int idx, float gainDb)`
(lines 63-76): return unchanged if `eq == null` or `idx` is out of
`[0, NUM_BANDS)`; otherwise store the gain in the `bandGains` mirror and,
when `idx < eq.getNumberOfBands()`, transmit
`setBandLevel((short)idx, (short)(gainDb*100))`.  The Java `try/catch`
around `setBandLevel` only logs, so transmission is modelled as recorded. -/
def setBandGain (s : EngineState) (idx : Int) (gainDb : ℚ) : EngineState :=
  match s.eq with
  | none => s
  | some realBands =>
    if idx < 0 ∨ NUM_BANDS ≤ idx then s
    else if idx < realBands then
      { s with bandGains := s.bandGains.set idx.toNat gainDb,
               transmitted := s.transmitted ++ [(idx, javaShortOfRat (gainDb * 100))] }
    else { s with bandGains := s.bandGains.set idx.toNat gainDb }

/-- Embedding of `GlobalEq.setGlobalVolume(float volDb)` (lines 78-80):
unconditional store, with no `eq == null` guard. -/
def setGlobalVolume (s : EngineState) (volDb : ℚ) : EngineState :=
  { s with globalVol := volDb }

/-- One iteration of the `resetToFlat` loop body (lines 84-89): zero
`bandGains[i]` and, when `i < eq.getNumberOfBands()`, transmit
`setBandLevel((short)i, (short)0)`. -/
def resetStep (realBands : Int) (acc : EngineState) (i : Nat) : EngineState :=
  if (i : Int) < realBands then
    { acc with bandGains := acc.bandGains.set i 0,
               transmitted := acc.transmitted ++ [((i : Int), 0)] }
  else { acc with bandGains := acc.bandGains.set i 0 }

/-- Embedding of `GlobalEq.resetToFlat()` (lines 82-91): return unchanged
if `eq == null`; otherwise run the loop for `i = 0 .. NUM_BANDS-1` and
finally zero `globalVol`. -/
def resetToFlat (s : EngineState) : EngineState :=
  match s.eq with
  | none => s
  | some realBands =>
    { (List.range 8).foldl (resetStep realBands) s with globalVol := 0 }

/-- Magnitude computed by the `getFftData` loop body for bin `i`
(lines 100-102): `Math.sqrt(real*real + imag*imag)` over the two signed
bytes of the bin, with the arithmetic done in Java `int`. -/
noncomputable def fftMag (bytes : List Int) (i : Nat) : ℝ :=
  Real.sqrt
    (((bytes.getD (2 * i) 0) * (bytes.getD (2 * i) 0) +
      (bytes.getD (2 * i + 1) 0) * (bytes.getD (2 * i + 1) 0) : Int) : ℝ)

/-- Embedding of the magnitude array construction of `GlobalEq.getFftData`
(lines 97-104): allocate `new float[n]` (all zeros) and loop
`for (int i = 1; i < n; i++)` setting bin `i`; bin 0 is never written. -/
noncomputable def fftMagnitudes (bytes : List Int) : List ℝ :=
  (List.range' 1 (bytes.length / 2 - 1)).foldl
    (fun acc i => acc.set i (fftMag bytes i))
    (List.replicate (bytes.length / 2) 0)

/-- Embedding of `GlobalEq.getFftData()` (lines 93-105).  `viz` is the
`visualizer` field; `fftBytes` is the environment-supplied result of
`visualizer.getFft()` (`none` models a `null` byte array). -/
noncomputable def getFftData (viz : Option Unit) (fftBytes : Option (List Int)) : List ℝ :=
  match viz with
  | none => []
  | some _ =>
    match fftBytes with
    | none => []
    | some bytes =>
      if bytes.length < 2 then [] else fftMagnitudes bytes

/-- Embedding of `GlobalEq.initGlobalEq()` (lines 32-61).  The environment
booleans say whether the `new Equalizer(0,0)` / `new Visualizer(0)`
constructions throw (both `try` blocks first null the old object, so a
throw leaves the field null); `realBands` is the new equalizer's
`getNumberOfBands()`.  Independently of the `try` outcome, the method then
zeroes every `bandGains` entry and `globalVol` (lines 44-47). -/
def initGlobalEq (s : EngineState) (eqInitFails : Bool) (realBands : Int)
    (vizInitFails : Bool) : EngineState :=
  { s with
    eq := if eqInitFails then none else some realBands,
    bandGains := List.replicate 8 0,
    globalVol := 0,
    visualizer := if vizInitFails then none else some () }

/-! ## Rust side: global slots, `with_jni_env`, UI closures
(`src/main.rs` lines 110-209 and 239-285) -/

/-- Error string produced by `with_jni_env` when `GLOBAL_JNI_ENV` is empty
(line 205); this is the spec's `HandleAbsent` failure. -/
def handleAbsentMsg : String := "No stored JNIEnv pointer"

/-- Error string produced by every `call_*` helper when
`JAVA_GLOBALEQ_CLASS` is empty (for example line 130). -/
def classAbsentMsg : String := "GlobalEq class not stored"

/-- Local UI mirror state of `EqualizerUI`: the eight `band_states`
`use_state` cells, the `volume_state` cell and the `spectro_data` cell. -/
structure LocalUi where
  bandStates : List ℚ
  volumeState : ℚ
  spectroData : List ℝ

/-- Whole-system state: the two process-global slots (`GLOBAL_JNI_ENV`,
`JAVA_GLOBALEQ_CLASS`), the foreign engine statics, and the local UI
mirrors. -/
structure SysState where
  jniEnv : Option Unit
  globalEqClass : Option Unit
  engine : EngineState
  ui : LocalUi

/-- Embedding of `with_jni_env(|env| call_xxx(env, ...))` for a
state-mutating foreign call: fail with `HandleAbsent` when no JNI
environment is stored (line 205), fail with the class-absent message when
`JAVA_GLOBALEQ_CLASS` is empty, otherwise run the engine method. -/
def with_jni_env_run (s : SysState) (f : EngineState → EngineState) :
    SysState × Except String Unit :=
  match s.jniEnv with
  | none => (s, Except.error handleAbsentMsg)
  | some _ =>
    match s.globalEqClass with
    | none => (s, Except.error classAbsentMsg)
    | some _ => ({ s with engine := f s.engine }, Except.ok ())

/-- Embedding of the `set_band` closure (lines 268-271).  The closure first
runs `band_states[idx].set(db)` — an unchecked `Vec` index which panics
when `idx` is out of bounds, modelled as `none` — and then issues the
foreign call, discarding its `Result` (returned here in the pair). -/
def set_band (s : SysState) (idx : Nat) (db : ℚ) :
    Option (SysState × Except String Unit) :=
  if idx < s.ui.bandStates.length then
    some (with_jni_env_run
      { s with ui := { s.ui with bandStates := s.ui.bandStates.set idx db } }
      (fun e => setBandGain e (idx : Int) db))
  else none

/-- Embedding of the `set_volume` closure (lines 272-278): store into
`volume_state`, then issue the foreign call, discarding its `Result`. -/
def set_volume (s : SysState) (db : ℚ) : SysState × Except String Unit :=
  with_jni_env_run { s with ui := { s.ui with volumeState := db } }
    (fun e => setGlobalVolume e db)

/-- Embedding of the `do_reset` closure (lines 279-285): zero every
`band_states` cell and `volume_state`, then issue the foreign
`resetToFlat`, discarding its `Result`. -/
def do_reset (s : SysState) : SysState × Except String Unit :=
  with_jni_env_run
    { s with ui := { s.ui with
        bandStates := s.ui.bandStates.map (fun _ => 0), volumeState := 0 } }
    resetToFlat

/-- Embedding of `with_jni_env(|env| call_get_fft_data(env))`
(lines 163-183): a read-only bridge call returning the marshalled frame. -/
noncomputable def bridge_get_fft_data (s : SysState) (fftBytes : Option (List Int)) :
    Except String (List ℝ) :=
  match s.jniEnv with
  | none => Except.error handleAbsentMsg
  | some _ =>
    match s.globalEqClass with
    | none => Except.error classAbsentMsg
    | some _ => Except.ok (getFftData s.engine.visualizer fftBytes)

/-- Embedding of one poller loop body (lines 255-259):
`if let Ok(data) = with_jni_env(call_get_fft_data) { sp.set(data) }` —
on success overwrite `spectro_data`, on any error leave it untouched. -/
noncomputable def poll_tick (s : SysState) (fftBytes : Option (List Int)) : SysState :=
  match bridge_get_fft_data s fftBytes with
  | Except.ok data => { s with ui := { s.ui with spectroData := data } }
  | Except.error _ => s

/-! ## Telemetry poller lifecycle (`EqualizerUI` effect, lines 250-266)

The spawned thread runs `while running.load() { poll; sleep(100ms) }`; the
effect's cleanup runs `running.store(false); handle.join()`.  We model the
two concurrency domains as an interleaved small-step transition system:
the thread's program counter walks `checkFlag → pollCall → sleepWait →
checkFlag …` and exits to `exited` when the flag reads false; the main
(UI) domain's teardown sets the flag and then joins — the join step is
only enabled once the thread has exited, which is exactly the blocking
behaviour of `JoinHandle::join`.  `published` counts `sp.set(data)`
publishes to the subscriber. -/

/-- Program counter of the background poller thread. -/
inductive ThreadPc where
  | checkFlag
  | pollCall
  | sleepWait
  | exited
deriving DecidableEq, Repr

/-- Program counter of the UI-side teardown (`Idle → Running` is before
`beforeStop`; `stop` = set flag (`flagCleared`) then join (`joined`)). -/
inductive MainPc where
  | beforeStop
  | flagCleared
  | joined
deriving DecidableEq, Repr

/-- Combined state of the poller system: the shared `running` atomic, the
two program counters, and the number of frames published so far. -/
structure PollerSys where
  runningFlag : Bool
  tpc : ThreadPc
  mpc : MainPc
  published : Nat
deriving DecidableEq, Repr

/-- State of the poller right after the `use_effect` spawns the thread:
flag true, thread at the loop head, teardown not yet requested. -/
def pollerInit : PollerSys :=
  { runningFlag := true, tpc := ThreadPc.checkFlag, mpc := MainPc.beforeStop,
    published := 0 }

/-- Interleaved small-step relation of the poller system.  Thread steps:
read the flag (entering the loop body or exiting), perform the poll (the
`with_jni_env` call may succeed — publishing a frame — or fail —
publishing nothing), finish the 100 ms sleep.  Main steps: store `false`
into the flag, then join once the thread has exited. -/
inductive PollStep : PollerSys → PollerSys → Prop where
  | loopEnter (s : PollerSys) : s.tpc = ThreadPc.checkFlag → s.runningFlag = true →
      PollStep s { s with tpc := ThreadPc.pollCall }
  | loopExit (s : PollerSys) : s.tpc = ThreadPc.checkFlag → s.runningFlag = false →
      PollStep s { s with tpc := ThreadPc.exited }
  | pollOk (s : PollerSys) : s.tpc = ThreadPc.pollCall →
      PollStep s { s with tpc := ThreadPc.sleepWait, published := s.published + 1 }
  | pollErr (s : PollerSys) : s.tpc = ThreadPc.pollCall →
      PollStep s { s with tpc := ThreadPc.sleepWait }
  | sleepDone (s : PollerSys) : s.tpc = ThreadPc.sleepWait →
      PollStep s { s with tpc := ThreadPc.checkFlag }
  | stopSetFlag (s : PollerSys) : s.mpc = MainPc.beforeStop →
      PollStep s { s with runningFlag := false, mpc := MainPc.flagCleared }
  | stopJoin (s : PollerSys) : s.mpc = MainPc.flagCleared → s.tpc = ThreadPc.exited →
      PollStep s { s with mpc := MainPc.joined }

/-! ## Concrete states used by counterexamples and witnesses -/

/-- Engine statics exactly as the Java class initializers leave them
(lines 26-30): everything null/zero. -/
def engineFresh : EngineState :=
  { eq := none, visualizer := none, bandGains := List.replicate 8 0,
    globalVol := 0, transmitted := [] }

/-- System state before the bootstrap `storeJNIEnv` /
`install_java_source_and_init` events: both global slots empty, UI mirrors
at their `use_state` initial values. -/
def sysNoHandle : SysState :=
  { jniEnv := none, globalEqClass := none, engine := engineFresh,
    ui := { bandStates := List.replicate 8 0, volumeState := 0, spectroData := [] } }

/-- System state after bootstrap: both global slots filled, engine
initialized with a 5-band platform equalizer and no visualizer. -/
def sysReady : SysState :=
  { jniEnv := some (), globalEqClass := some (),
    engine := { eq := some 5, visualizer := none,
                bandGains := List.replicate 8 0, globalVol := 0, transmitted := [] },
    ui := { bandStates := List.replicate 8 0, volumeState := 0, spectroData := [] } }

/-! ## Theorems -/

/-- C3: for every `db` in `[min_db, max_db]` the composition
`yToDb (dbToY db)` returns `db` exactly (the code's affine arithmetic is
modelled exactly over `ℚ`, so "within floating-point tolerance" becomes
equality), and for `db` outside that range the composition returns the
nearer bound; in general it equals the clamp of `db` to `[min_db, max_db]`. -/
theorem c3_db_y_roundtrip (db : ℚ) :
    y_to_db (db_to_y db) = clampVal min_db max_db db ∧
    (min_db ≤ db → db ≤ max_db → y_to_db (db_to_y db) = db) ∧
    (db < min_db → y_to_db (db_to_y db) = min_db) ∧
    (max_db < db → y_to_db (db_to_y db) = max_db) := by
  have hmain : y_to_db (db_to_y db) = clampVal min_db max_db db := by
    rcases le_or_lt db min_db with h | h
    · have e2 : clampVal min_db max_db db = min_db := by
        rw [clampVal, min_eq_left (le_trans h (by norm_num [min_db, max_db]))]
        exact max_eq_left h
      simp only [db_to_y, e2]
      norm_num [y_to_db, clampVal, min_db, max_db]
    · rcases le_or_lt db max_db with h2 | h2
      · have e2 : clampVal min_db max_db db = db := by
          rw [clampVal, min_eq_left h2]
          exact max_eq_right (le_of_lt h)
        simp only [db_to_y, e2, y_to_db]
        have hy0 : (0 : ℚ) ≤ 200 - (db - min_db) / (max_db - min_db) * 200 := by
          simp only [min_db, max_db] at *
          linarith
        have hy200 : 200 - (db - min_db) / (max_db - min_db) * 200 ≤ 200 := by
          simp only [min_db, max_db] at *
          linarith
        rw [clampVal, min_eq_left hy200, max_eq_right hy0]
        simp only [min_db, max_db]
        ring
      · have e2 : clampVal min_db max_db db = max_db := by
          rw [clampVal, min_eq_right (le_of_lt h2)]
          exact max_eq_right (by norm_num [min_db, max_db])
        simp only [db_to_y, e2]
        norm_num [y_to_db, clampVal, min_db, max_db]
  refine ⟨hmain, ?_, ?_, ?_⟩
  · intro h1 h2
    rw [hmain, clampVal, min_eq_left h2]
    exact max_eq_right h1
  · intro h
    rw [hmain, clampVal,
      min_eq_left (le_trans (le_of_lt h) (by norm_num [min_db, max_db]))]
    exact max_eq_left (le_of_lt h)
  · intro h
    rw [hmain, clampVal, min_eq_right (le_of_lt h)]
    exact max_eq_right (by norm_num [min_db, max_db])

/-- Witness for C3: the round trip is the identity at the in-range value
`7` dB and clamps `30` dB to the upper bound. -/
theorem c3_witness :
    y_to_db (db_to_y 7) = 7 ∧ y_to_db (db_to_y 30) = max_db :=
  ⟨(c3_db_y_roundtrip 7).2.1 (by norm_num [min_db]) (by norm_num [max_db]),
   (c3_db_y_roundtrip 30).2.2.2 (by norm_num [max_db])⟩

/-- C8: `freqToX` is monotonically non-decreasing on `[20, 20000]`, and
frequencies outside that range are clamped to it before the logarithmic
mapping (so the value at any `f < 20` equals the value at `20`, and at any
`f > 20000` the value at `20000`); the function is total, never an error. -/
theorem c8_freq_to_x_monotone_clamped (a b f : ℝ)
    (h1 : 20 ≤ a) (h2 : a ≤ b) (h3 : b ≤ 20000) :
    freq_to_x a ≤ freq_to_x b ∧
    (f < 20 → freq_to_x f = freq_to_x (20 : ℝ)) ∧
    (20000 < f → freq_to_x f = freq_to_x (20000 : ℝ)) := by
  have hden : 0 < Real.logb 10 20000 - Real.logb 10 20 := by
    have := Real.logb_lt_logb (b := 10) (by norm_num)
      (by norm_num : (0 : ℝ) < 20) (by norm_num : (20 : ℝ) < 20000)
    linarith
  refine ⟨?_, ?_, ?_⟩
  · have ea : clampVal (20 : ℝ) 20000 a = a := by
      rw [clampVal, min_eq_left (le_trans h2 h3)]
      exact max_eq_right h1
    have eb : clampVal (20 : ℝ) 20000 b = b := by
      rw [clampVal, min_eq_left h3]
      exact max_eq_right (le_trans h1 h2)
    simp only [freq_to_x, ea, eb]
    have hlog : Real.logb 10 a ≤ Real.logb 10 b :=
      Real.logb_le_logb_of_le (by norm_num) (by linarith) h2
    apply mul_le_mul_of_nonneg_right _ (by norm_num : (0 : ℝ) ≤ 500)
    rw [div_le_div_iff_of_pos_right hden]
    linarith
  · intro hf
    have ef : clampVal (20 : ℝ) 20000 f = 20 := by
      rw [clampVal, min_eq_left (by linarith)]
      exact max_eq_left (le_of_lt hf)
    have e20 : clampVal (20 : ℝ) 20000 (20 : ℝ) = 20 := by
      rw [clampVal, min_eq_left (by norm_num)]
      exact max_eq_left le_rfl
    simp only [freq_to_x, ef, e20]
  · intro hf
    have ef : clampVal (20 : ℝ) 20000 f = 20000 := by
      rw [clampVal, min_eq_right (le_of_lt hf)]
      exact max_eq_right (by norm_num)
    have e2k : clampVal (20 : ℝ) 20000 (20000 : ℝ) = 20000 := by
      rw [clampVal, min_eq_left le_rfl]
      exact max_eq_right (by norm_num)
    simp only [freq_to_x, ef, e2k]

/-- Witness for C8 at `a = 20`, `b = 200`, `f = 10`. -/
theorem c8_witness :
    freq_to_x 20 ≤ freq_to_x 200 ∧ freq_to_x 10 = freq_to_x 20 :=
  ⟨(c8_freq_to_x_monotone_clamped 20 200 10 (by norm_num) (by norm_num)
      (by norm_num)).1,
   (c8_freq_to_x_monotone_clamped 20 200 10 (by norm_num) (by norm_num)
      (by norm_num)).2.1 (by norm_num)⟩

/-- Helper: the Java `(short)` cast of an exact integer-valued float in the
`short` range is that integer (no truncation loss, no saturation, no wrap). -/
theorem javaShortOfRat_intCast (m : Int) (h1 : -32768 ≤ m) (h2 : m < 32768) :
    javaShortOfRat (m : ℚ) = m := by
  have p31 : ((2 : Int) ^ 31) = 2147483648 := by norm_num
  have p15 : ((2 : Int) ^ 15) = 32768 := by norm_num
  have p16 : ((2 : Int) ^ 16) = 65536 := by norm_num
  have ht : truncToInt (m : ℚ) = m := by
    unfold truncToInt
    split
    · exact Int.floor_intCast m
    · exact Int.ceil_intCast m
  unfold javaShortOfRat javaFloatToInt intToShort
  rw [ht, p31, p15, p16, if_neg (by omega), if_neg (by omega)]
  have hmod : (m + 32768) % 65536 = m + 32768 :=
    Int.emod_eq_of_lt (by omega) (by omega)
  omega

/-- C7: for every in-range index with the engine present, `setBandGain`
stores the gain in the engine's local `bandGains` mirror; when
`idx < getNumberOfBands()` it transmits `setBandLevel` with the gain
converted to hundredths of a dB as a Java `short` (exactly `db * 100`
whenever that is an integer in short range); when the engine reports fewer
controllable bands (`realBands ≤ idx < NUM_BANDS`) the gain is kept in the
mirror but nothing is transmitted. -/
theorem c7_band_gain_scaled (s : EngineState) (idx rb : Int) (db : ℚ)
    (heq : s.eq = some rb) (h0 : 0 ≤ idx) (h8 : idx < NUM_BANDS) :
    (setBandGain s idx db).bandGains = s.bandGains.set idx.toNat db ∧
    (setBandGain s idx db).globalVol = s.globalVol ∧
    (idx < rb →
      (setBandGain s idx db).transmitted =
        s.transmitted ++ [(idx, javaShortOfRat (db * 100))]) ∧
    (rb ≤ idx → (setBandGain s idx db).transmitted = s.transmitted) ∧
    (idx < rb → (db * 100).den = 1 → -32768 ≤ (db * 100).num →
      (db * 100).num < 32768 →
      (setBandGain s idx db).transmitted =
        s.transmitted ++ [(idx, (db * 100).num)]) := by
  have hcond : ¬ (idx < 0 ∨ NUM_BANDS ≤ idx) := by
    simp only [NUM_BANDS] at *
    omega
  simp only [setBandGain, heq, if_neg hcond]
  refine ⟨?_, ?_, ?_, ?_, ?_⟩
  · split <;> rfl
  · split <;> rfl
  · intro hlt
    rw [if_pos hlt]
  · intro hge
    rw [if_neg (not_lt.mpr hge)]
  · intro hlt hden hlo hhi
    rw [if_pos hlt]
    have hq : ((db * 100).num : ℚ) = db * 100 := (Rat.den_eq_one_iff _).mp hden
    have hs : javaShortOfRat (db * 100) = (db * 100).num := by
      conv_lhs => rw [← hq]
      exact javaShortOfRat_intCast _ hlo hhi
    rw [hs]

/-- Witness for C7: engine with a 5-band platform equalizer, `idx = 2`,
`db = 3/2` dB; the transmitted level is exactly `150` hundredths of a dB,
and a gain at `idx = 6 ≥ 5` is mirrored without transmission. -/
theorem c7_witness :
    (setBandGain sysReady.engine 2 (3 / 2)).transmitted = [(2, 150)] ∧
    (setBandGain sysReady.engine 6 (3 / 2)).transmitted = [] ∧
    (setBandGain sysReady.engine 6 (3 / 2)).bandGains =
      (List.replicate 8 (0 : ℚ)).set 6 (3 / 2) := by
  refine ⟨?_, ?_, ?_⟩
  · have h := (c7_band_gain_scaled sysReady.engine 2 5 (3 / 2) rfl
      (by norm_num) (by norm_num [NUM_BANDS])).2.2.2.2
      (by norm_num) (by norm_num) (by norm_num) (by norm_num)
    have h150 : ((3 : ℚ) / 2 * 100) = 150 := by norm_num
    simpa [sysReady, h150, Rat.num_ofNat] using h
  · have h := (c7_band_gain_scaled sysReady.engine 6 5 (3 / 2) rfl
      (by norm_num) (by norm_num [NUM_BANDS])).2.2.2.1 (by norm_num)
    simpa [sysReady] using h
  · have h := (c7_band_gain_scaled sysReady.engine 6 5 (3 / 2) rfl
      (by norm_num) (by norm_num [NUM_BANDS])).1
    simpa [sysReady] using h

/-- C10: when the foreign equalizer object is null, `setBandGain` and
`resetToFlat` return immediately, changing no engine field at all — not
even the engine-side mirrors `bandGains` and `globalVol`. -/
theorem c10_null_guard (s : EngineState) (idx : Int) (db : ℚ)
    (h : s.eq = none) :
    setBandGain s idx db = s ∧ resetToFlat s = s := by
  constructor
  · simp only [setBandGain, h]
  · simp only [resetToFlat, h]

/-- Witness for C10 on the fresh engine state (all statics at their Java
initializer values, `eq == null`). -/
theorem c10_witness :
    setBandGain engineFresh 3 7 = engineFresh ∧
    resetToFlat engineFresh = engineFresh :=
  c10_null_guard engineFresh 3 7 rfl

/-- C6: with the bridge operational, `getFftData` yields `Except.ok []` —
an empty frame, never an error — whenever the foreign engine has not yet
produced spectral data: visualizer null, `getFft()` returning a null
array, or a byte buffer shorter than 2. -/
theorem c6_fft_empty_not_error (s : SysState) (fb : Option (List Int))
    (bytes : List Int) (h1 : s.jniEnv = some ()) (h2 : s.globalEqClass = some ()) :
    (s.engine.visualizer = none → bridge_get_fft_data s fb = Except.ok []) ∧
    (bridge_get_fft_data s none = Except.ok []) ∧
    (s.engine.visualizer = some () → bytes.length < 2 →
      bridge_get_fft_data s (some bytes) = Except.ok []) := by
  refine ⟨?_, ?_, ?_⟩
  · intro hv
    simp only [bridge_get_fft_data, h1, h2, getFftData, hv]
  · simp only [bridge_get_fft_data, h1, h2, getFftData]
    cases s.engine.visualizer <;> rfl
  · intro hv hlen
    simp only [bridge_get_fft_data, h1, h2, getFftData, hv, if_pos hlen]

/-- Witness for C6: the post-bootstrap state `sysReady` (visualizer
absent) returns an empty frame, and even with a visualizer a 1-byte
buffer returns an empty frame. -/
theorem c6_witness :
    bridge_get_fft_data sysReady none = Except.ok [] ∧
    bridge_get_fft_data
      { sysReady with engine := { sysReady.engine with visualizer := some () } }
      (some [7]) = Except.ok [] := by
  constructor
  · exact (c6_fft_empty_not_error sysReady none [] rfl rfl).2.1
  · exact (c6_fft_empty_not_error
      { sysReady with engine := { sysReady.engine with visualizer := some () } }
      (some [7]) [7] rfl rfl).2.2 rfl (by norm_num)

/-- C2 counterexample: the claim says an out-of-range `setBandGain` does
not panic and silently leaves BandState unchanged, but the UI-level
`set_band` closure (line 269) performs the unchecked `Vec` index
`band_states[idx]` first: at index `8` (outside `[0, 8)`) on the
post-bootstrap state it panics, modelled as `none`. -/
theorem c2_counterexample : set_band sysReady 8 0 = none := by
  rfl

/-- C2 as amended: at the foreign-engine level, `GlobalEq.setBandGain`
with any out-of-range index returns with every engine field unchanged and
no error; the Rust `set_band` closure, however, panics (unchecked index)
for any index at or beyond the length of `band_states`, so the no-panic
part only holds at the engine boundary (the UI itself never produces an
out-of-range index). -/
theorem c2_out_of_range (s : EngineState) (sys : SysState) (idx : Int)
    (jdx : Nat) (db q : ℚ) (hidx : idx < 0 ∨ NUM_BANDS ≤ idx)
    (hjdx : sys.ui.bandStates.length ≤ jdx) :
    setBandGain s idx db = s ∧ set_band sys jdx q = none := by
  constructor
  · rcases hseq : s.eq with _ | rb
    · simp only [setBandGain, hseq]
    · simp only [setBandGain, hseq, if_pos hidx]
  · simp only [set_band, if_neg (not_lt.mpr hjdx)]

/-- Witness for C2's amended statement at engine index `9` and UI index
`9` on the post-bootstrap state. -/
theorem c2_witness :
    setBandGain sysReady.engine 9 5 = sysReady.engine ∧
    set_band sysReady 9 5 = none :=
  c2_out_of_range sysReady.engine sysReady 9 9 5 5
    (Or.inr (by norm_num [NUM_BANDS])) (by decide)

/-- C1 counterexample: before the handle is installed, `set_band 0 5.0`
does return the `HandleAbsent` error (which line 270 discards), but the
local `BandState` mirror is NOT left unchanged: the closure eagerly sets
`band_states[0]` to `5` before attempting the foreign call. -/
theorem c1_counterexample :
    set_band sysNoHandle 0 5 =
      some ({ sysNoHandle with ui := { sysNoHandle.ui with
                bandStates := (List.replicate 8 (0 : ℚ)).set 0 5 } },
            Except.error handleAbsentMsg) ∧
    (List.replicate 8 (0 : ℚ)).set 0 5 ≠ sysNoHandle.ui.bandStates := by
  constructor
  · rfl
  · decide

/-- C1 as amended: with no JNI environment installed, every bridge
operation fails with the `HandleAbsent` error and the foreign engine state
is untouched; however the mutating UI closures (`set_band`, `set_volume`,
`do_reset`) update the local mirrors to the requested values *before* the
failed foreign call (and discard the error), so only the poller's
`spectro_data` mirror — whose update is guarded by `if let Ok` — is left
unchanged. -/
theorem c1_pre_install (s : SysState) (idx : Nat) (db q : ℚ)
    (fb : Option (List Int)) (h : s.jniEnv = none)
    (hidx : idx < s.ui.bandStates.length) :
    set_band s idx db =
      some ({ s with ui := { s.ui with bandStates := s.ui.bandStates.set idx db } },
            Except.error handleAbsentMsg) ∧
    set_volume s q =
      ({ s with ui := { s.ui with volumeState := q } }, Except.error handleAbsentMsg) ∧
    do_reset s =
      ({ s with ui := { s.ui with
          bandStates := s.ui.bandStates.map (fun _ => 0), volumeState := 0 } },
       Except.error handleAbsentMsg) ∧
    bridge_get_fft_data s fb = Except.error handleAbsentMsg ∧
    poll_tick s fb = s := by
  refine ⟨?_, ?_, ?_, ?_, ?_⟩
  · simp only [set_band, if_pos hidx, with_jni_env_run, h]
  · simp only [set_volume, with_jni_env_run, h]
  · simp only [do_reset, with_jni_env_run, h]
  · simp only [bridge_get_fft_data, h]
  · simp only [poll_tick, bridge_get_fft_data, h]

/-- Witness for C1's amended statement on the pre-bootstrap state. -/
theorem c1_witness :
    sysNoHandle.jniEnv = none ∧
    set_volume sysNoHandle 5 =
      ({ sysNoHandle with ui := { sysNoHandle.ui with volumeState := 5 } },
       Except.error handleAbsentMsg) ∧
    bridge_get_fft_data sysNoHandle none = Except.error handleAbsentMsg ∧
    poll_tick sysNoHandle none = sysNoHandle :=
  ⟨rfl, (c1_pre_install sysNoHandle 0 5 5 none rfl (by decide)).2.1,
   (c1_pre_install sysNoHandle 0 5 5 none rfl (by decide)).2.2.2.1,
   (c1_pre_install sysNoHandle 0 5 5 none rfl (by decide)).2.2.2.2⟩

/-- Helper: the `resetToFlat` loop's effect on `bandGains` is the plain
fold of `set i 0`, independent of the transmissions it interleaves. -/
theorem foldl_resetStep_bandGains (rb : Int) (L : List Nat) (s : EngineState) :
    (L.foldl (resetStep rb) s).bandGains =
      L.foldl (fun g i => g.set i 0) s.bandGains := by
  induction L generalizing s with
  | nil => rfl
  | cons a t ih =>
    simp only [List.foldl_cons, ih]
    congr 1
    simp only [resetStep]
    split <;> rfl

/-- Helper: setting indices `0..7` of an 8-element list to `0` yields the
all-zero list. -/
theorem setAll8 (l : List ℚ) (h : l.length = 8) :
    (List.range 8).foldl (fun g i => g.set i 0) l = List.replicate 8 0 := by
  rcases l with _ | ⟨a, _ | ⟨b, _ | ⟨c, _ | ⟨d, _ | ⟨e, _ | ⟨f, _ | ⟨g, _ | ⟨h2, rest⟩⟩⟩⟩⟩⟩⟩⟩ <;>
    simp only [List.length_nil, List.length_cons] at h <;> try omega
  have hrest : rest = [] := List.eq_nil_of_length_eq_zero (by omega)
  subst hrest
  rfl

/-- C4 counterexample: `resetToFlat` does NOT always zero the foreign
engine state.  Reachable run: `initGlobalEq` with the `new Equalizer(0,0)`
construction throwing (leaving `eq == null`), then `setGlobalVolume(5)`
(which has no null guard), then `resetToFlat()` — the null guard makes
`resetToFlat` return immediately and the engine `globalVol` stays `5`. -/
theorem c4_counterexample :
    (resetToFlat (setGlobalVolume (initGlobalEq engineFresh true 5 true) 5)).globalVol
      = 5 ∧ (5 : ℚ) ≠ 0 := by
  constructor
  · rfl
  · norm_num

/-- C4 as amended: `do_reset` always zeroes the local UI mirrors
(`BandState` to all zeros, `VolumeState` to 0) regardless of prior state;
on the engine side `resetToFlat` zeroes `bandGains` and `globalVol` only
when the equalizer object is non-null, and with `eq == null` it returns
with the whole engine state (including a possibly nonzero `globalVol`)
unchanged. -/
theorem c4_reset_flat (sys : SysState) (s : EngineState) (rb : Int) :
    (do_reset sys).1.ui.bandStates = List.replicate sys.ui.bandStates.length 0 ∧
    (do_reset sys).1.ui.volumeState = 0 ∧
    (s.eq = some rb → s.bandGains.length = 8 →
      (resetToFlat s).bandGains = List.replicate 8 0 ∧
      (resetToFlat s).globalVol = 0) ∧
    (s.eq = none → resetToFlat s = s) := by
  have hui : (do_reset sys).1.ui = { sys.ui with
      bandStates := sys.ui.bandStates.map (fun _ => 0), volumeState := 0 } := by
    simp only [do_reset, with_jni_env_run]
    rcases sys.jniEnv with _ | u
    · rfl
    · rcases sys.globalEqClass with _ | v <;> rfl
  refine ⟨?_, ?_, ?_, ?_⟩
  · rw [hui]
    simp [List.map_const']
  · rw [hui]
  · intro heq hlen
    constructor
    · simp only [resetToFlat, heq]
      rw [foldl_resetStep_bandGains]
      exact setAll8 _ hlen
    · simp only [resetToFlat, heq]
  · intro heq
    simp only [resetToFlat, heq]

/-- Engine state with the equalizer present and every mirror dirty, used
to witness C4's amended statement. -/
def engineLoud : EngineState :=
  { eq := some 5, visualizer := none,
    bandGains := [1, 2, 3, 4, 5, 6, 7, 8], globalVol := -7, transmitted := [] }

/-- Witness for C4's amended statement: a reset from a dirty but
operational state really lands on all-zero mirrors. -/
theorem c4_witness :
    (do_reset sysReady).1.ui.bandStates = List.replicate 8 0 ∧
    (resetToFlat engineLoud).bandGains = List.replicate 8 0 ∧
    (resetToFlat engineLoud).globalVol = 0 := by
  refine ⟨?_, ((c4_reset_flat sysReady engineLoud 5).2.2.1 rfl (by decide)).1,
    ((c4_reset_flat sysReady engineLoud 5).2.2.1 rfl (by decide)).2⟩
  have h := (c4_reset_flat sysReady engineLoud 5).1
  simpa [sysReady] using h

/-- Helper: a fold of index-sets preserves list length. -/
theorem foldl_set_length (g : Nat → ℝ) (L : List Nat) (acc : List ℝ) :
    (L.foldl (fun a i => a.set i (g i)) acc).length = acc.length := by
  induction L generalizing acc with
  | nil => rfl
  | cons a t ih => simp only [List.foldl_cons, ih, List.length_set]

/-- Helper: a fold of index-sets that never touches index 0 leaves entry 0
of the accumulator unchanged. -/
theorem foldl_set_get_zero (g : Nat → ℝ) (L : List Nat) (acc : List ℝ)
    (hL : ∀ i ∈ L, i ≠ 0) :
    (L.foldl (fun a i => a.set i (g i)) acc)[0]? = acc[0]? := by
  induction L generalizing acc with
  | nil => rfl
  | cons a t ih =>
    simp only [List.foldl_cons]
    rw [ih _ (fun i hi => hL i (List.mem_cons_of_mem a hi))]
    exact List.getElem?_set_ne (hL a (List.mem_cons_self a t))

/-- Helper: a fold of index-sets with non-negative values over a
non-negative accumulator yields a non-negative list. -/
theorem foldl_set_nonneg (g : Nat → ℝ) (L : List Nat) (acc : List ℝ)
    (hg : ∀ i, 0 ≤ g i) (hacc : ∀ x ∈ acc, 0 ≤ x) :
    ∀ x ∈ L.foldl (fun a i => a.set i (g i)) acc, 0 ≤ x := by
  induction L generalizing acc with
  | nil => exact hacc
  | cons a t ih =>
    intro x hx
    refine ih _ ?_ x hx
    intro y hy
    rcases List.mem_or_eq_of_mem_set hy with h | h
    · exact hacc y h
    · rw [h]
      exact hg a

/-- C9: every non-empty frame returned by `getFftData` (visualizer present
and at least 2 FFT bytes) is non-empty, every element is non-negative
(each is a `Math.sqrt`), and its element at index 0 is exactly `0` — the
conversion loop starts at bin 1 and never writes the zero-initialized
bin 0. -/
theorem c9_fft_frame (bytes : List Int) (h : 2 ≤ bytes.length) :
    getFftData (some ()) (some bytes) ≠ [] ∧
    (getFftData (some ()) (some bytes))[0]? = some 0 ∧
    ∀ x ∈ getFftData (some ()) (some bytes), 0 ≤ x := by
  have hnot : ¬ bytes.length < 2 := not_lt.mpr h
  have hE : getFftData (some ()) (some bytes) = fftMagnitudes bytes := by
    simp only [getFftData, if_neg hnot]
  have hrange : ∀ i ∈ List.range' 1 (bytes.length / 2 - 1), i ≠ 0 := by
    intro i hi
    rcases List.mem_range'.mp hi with ⟨k, hk, rfl⟩
    omega
  have hlen : (fftMagnitudes bytes).length = bytes.length / 2 := by
    simp only [fftMagnitudes]
    rw [foldl_set_length]
    exact List.length_replicate _ _
  refine ⟨?_, ?_, ?_⟩
  · rw [hE]
    apply List.ne_nil_of_length_pos
    rw [hlen]
    omega
  · rw [hE]
    simp only [fftMagnitudes]
    rw [foldl_set_get_zero _ _ _ hrange, List.getElem?_replicate, if_pos (by omega)]
  · rw [hE]
    simp only [fftMagnitudes]
    refine foldl_set_nonneg _ _ _ (fun i => Real.sqrt_nonneg _) ?_
    intro x hx
    rw [List.eq_of_mem_replicate hx]

/-- Witness for C9 on the concrete 2-byte buffer `[3, 4]` (one FFT bin). -/
theorem c9_witness :
    2 ≤ ([3, 4] : List Int).length ∧
    getFftData (some ()) (some [3, 4]) ≠ [] ∧
    (getFftData (some ()) (some [3, 4]))[0]? = some 0 :=
  ⟨by decide, (c9_fft_frame [3, 4] (by decide)).1,
   (c9_fft_frame [3, 4] (by decide)).2.1⟩

/-- Helper: every poller step preserves the invariant "once the teardown
has joined, the background thread has exited". -/
theorem pollInv_step (s s' : PollerSys) (h : PollStep s s')
    (hs : s.mpc = MainPc.joined → s.tpc = ThreadPc.exited) :
    s'.mpc = MainPc.joined → s'.tpc = ThreadPc.exited := by
  cases h <;> simp_all

/-- Helper: the join-implies-exited invariant holds in every state
reachable from the freshly spawned poller. -/
theorem pollInv_reach (s : PollerSys)
    (h : Relation.ReflTransGen PollStep pollerInit s) :
    s.mpc = MainPc.joined → s.tpc = ThreadPc.exited := by
  induction h with
  | refl =>
    intro hj
    simp only [pollerInit] at hj
    cases hj
  | tail hab hbc ih => exact pollInv_step _ _ hbc ih

/-- Helper: from a state where teardown has joined (and hence the thread
has exited), no poller step can fire at all. -/
theorem no_step_after_join (s s' : PollerSys) (h : PollStep s s')
    (hm : s.mpc = MainPc.joined) (ht : s.tpc = ThreadPc.exited) : False := by
  cases h <;> simp_all

/-- C5: in every execution of the poller system reachable from the
spawned state, once `stop` has returned (flag stored and `join` completed,
`mpc = joined`) no later step changes the number of published frames —
zero publishes occur after teardown, even if a poll was in flight when the
flag was set (such a poll publishes, if at all, before `join` returns). -/
theorem c5_no_publish_after_stop (s s' : PollerSys)
    (hreach : Relation.ReflTransGen PollStep pollerInit s)
    (hstop : s.mpc = MainPc.joined)
    (h : Relation.ReflTransGen PollStep s s') :
    s'.published = s.published := by
  have ht : s.tpc = ThreadPc.exited := pollInv_reach s hreach hstop
  have hfix : s' = s := by
    induction h with
    | refl => rfl
    | tail hab hbc ih => exact ((no_step_after_join _ _ (ih ▸ hbc) hstop ht)).elim
  rw [hfix]

/-- Joined poller state reached by: enter loop, publish one frame, sleep,
re-check, teardown sets the flag, thread observes it and exits, join. -/
def pollerJoined : PollerSys :=
  { runningFlag := false, tpc := ThreadPc.exited, mpc := MainPc.joined,
    published := 1 }

/-- Helper: an explicit reachability trace from the spawned poller to
`pollerJoined`, exercising an in-flight publish before teardown. -/
theorem pollerJoined_reach :
    Relation.ReflTransGen PollStep pollerInit pollerJoined := by
  have t1 : PollStep pollerInit
      { runningFlag := true, tpc := ThreadPc.pollCall, mpc := MainPc.beforeStop,
        published := 0 } :=
    PollStep.loopEnter pollerInit rfl rfl
  have t2 : PollStep
      { runningFlag := true, tpc := ThreadPc.pollCall, mpc := MainPc.beforeStop,
        published := 0 }
      { runningFlag := true, tpc := ThreadPc.sleepWait, mpc := MainPc.beforeStop,
        published := 1 } :=
    PollStep.pollOk _ rfl
  have t3 : PollStep
      { runningFlag := true, tpc := ThreadPc.sleepWait, mpc := MainPc.beforeStop,
        published := 1 }
      { runningFlag := true, tpc := ThreadPc.checkFlag, mpc := MainPc.beforeStop,
        published := 1 } :=
    PollStep.sleepDone _ rfl
  have t4 : PollStep
      { runningFlag := true, tpc := ThreadPc.checkFlag, mpc := MainPc.beforeStop,
        published := 1 }
      { runningFlag := false, tpc := ThreadPc.checkFlag, mpc := MainPc.flagCleared,
        published := 1 } :=
    PollStep.stopSetFlag _ rfl
  have t5 : PollStep
      { runningFlag := false, tpc := ThreadPc.checkFlag, mpc := MainPc.flagCleared,
        published := 1 }
      { runningFlag := false, tpc := ThreadPc.exited, mpc := MainPc.flagCleared,
        published := 1 } :=
    PollStep.loopExit _ rfl rfl
  have t6 : PollStep
      { runningFlag := false, tpc := ThreadPc.exited, mpc := MainPc.flagCleared,
        published := 1 }
      pollerJoined :=
    PollStep.stopJoin _ rfl rfl
  exact Relation.ReflTransGen.tail (Relation.ReflTransGen.tail
    (Relation.ReflTransGen.tail (Relation.ReflTransGen.tail
      (Relation.ReflTransGen.tail (Relation.ReflTransGen.tail
        Relation.ReflTransGen.refl t1) t2) t3) t4) t5) t6

/-- Witness for C5: the concrete joined state (reached through a trace
that published one frame before teardown) keeps its publish count along
any further execution. -/
theorem c5_witness :
    pollerJoined.mpc = MainPc.joined ∧
    pollerJoined.published = pollerJoined.published :=
  ⟨rfl, c5_no_publish_after_stop pollerJoined pollerJoined pollerJoined_reach
    rfl Relation.ReflTransGen.refl⟩
